import Mathlib

/-!
# Verification of the Scale Mesos scheduler dispatcher

Shallow embedding of `src/scale/scheduler/scale_scheduler.py` (class
`ScaleScheduler`).  The dispatcher itself is translated from the source.
Its collaborators (`RunningJobExecution`, the managers, the reconciliation
thread, the backing store, the agent log fetcher) live elsewhere in the
repository and are modelled from the specification; each such definition
carries a doc comment saying so.  External calls that can fail (backing
store, log fetch) are driven by explicit oracle records: an oracle flag set
to `true` means that collaborator call raises at that point, mirroring that
the dispatcher has no control over whether a collaborator raises.  A
collaborator call that raises is modelled as leaving the collaborator's
in-memory state unchanged.

Each callback returns a `CallbackResult`: the successor scheduler state, an
ordered trace of the collaborator calls performed (`Effect`), the exception
propagated to the Driver if any (`raised`), and whether `statusUpdate`'s
outer `except` clause fired (`handled`).
-/

namespace Scale

/-- Mesos task states (`mesos_pb2.TASK_*`). -/
inductive TaskState
  | staging
  | starting
  | running
  | finished
  | failed
  | killed
  | lost
  | error
deriving DecidableEq, Repr

/-- A task status update delivered by the Driver: `status.task_id.value`,
`status.state`, and the data `utils.parse_exit_code` / `utils.get_status_timestamp`
extract from it. -/
structure TaskStatus where
  task_id : String
  state : TaskState
  exit_code : Option Int := none
  timestamp : Nat := 0
deriving DecidableEq, Repr

/-- Well-known builtin errors of the backing store (`Error.objects.get_builtin_error`). -/
inductive BuiltinError
  | mesosLost
  | nodeLost
  | schedulerLost
deriving DecidableEq, Repr

/-- Decimal value of a digit prefix. -/
def digitsVal (cs : List Char) : Nat :=
  cs.foldl (fun n c => n * 10 + (c.toNat - 48)) 0

/-- Modelled from the spec: `RunningJobExecution.get_job_exe_id`, the pure
embedding of a `job_exe_id` inside a `task_id` (the task id starts with the
decimal job execution id). -/
def get_job_exe_id (task_id : String) : Nat :=
  digitsVal (task_id.data.takeWhile Char.isDigit)

/-- Per-execution task state machine states (§4.3 of the spec). -/
inductive ExecState
  | queued
  | launched
  | running
  | finished
  | failed
  | lost
deriving DecidableEq, Repr

/-- Modelled from the spec: terminal states of the task state machine. -/
def ExecState.isTerminal : ExecState → Bool
  | .finished => true
  | .failed => true
  | .lost => true
  | _ => false

/-- A task owned by a running execution (`running_job_exe.current_task`). -/
structure RunningTask where
  id : String
deriving DecidableEq, Repr

/-- The `TaskResults` record: per-status-update result record. -/
structure TaskResults where
  task_id : String
  exit_code : Option Int := none
  when : Nat := 0
  stdout : Option String := none
  stderr : Option String := none
deriving DecidableEq, Repr

/-- Modelled from the spec: the in-memory view of a `RunningJobExecution`
(`job.execution.running.job_exe`, not under `src/`): identity, node
coordinates for log retrieval, the current task, and the state machine. -/
structure RunningJobExecution where
  id : Nat
  node_id : Nat
  node_hostname : String
  node_port : Nat
  current_task : Option RunningTask := none
  state : ExecState := .launched
  results : Option TaskResults := none
deriving DecidableEq, Repr

/-- Modelled from the spec: `is_finished()` reports whether the state machine
is terminal (`finished`, `failed` or `lost`). -/
def RunningJobExecution.is_finished (e : RunningJobExecution) : Bool :=
  e.state.isTerminal

/-- Modelled from the spec: on RUNNING, `launched → running`. -/
def RunningJobExecution.task_running (e : RunningJobExecution) : RunningJobExecution :=
  { e with state := .running }

/-- Modelled from the spec: on FINISHED, any → `finished`, recording results. -/
def RunningJobExecution.task_complete (e : RunningJobExecution) (r : TaskResults) :
    RunningJobExecution :=
  { e with state := .finished, results := some r }

/-- Modelled from the spec: `task_fail` drives LOST (with builtin error
*mesos-lost*) to `lost` and ERROR/FAILED/KILLED to `failed`. -/
def RunningJobExecution.task_fail (e : RunningJobExecution) (r : TaskResults)
    (err : Option BuiltinError) : RunningJobExecution :=
  if err = some .mesosLost then { e with state := .lost, results := some r }
  else { e with state := .failed, results := some r }

/-- Modelled from the spec: on node loss, `execution_lost(ts)` drives any
state to `lost` with builtin error *node-lost*. -/
def RunningJobExecution.execution_lost (e : RunningJobExecution) : RunningJobExecution :=
  { e with state := .lost }

/-- Manager lookup `RunningJobExecutionManager.get_job_exe`: lookup by job execution id. -/
def get_job_exe (mgr : List RunningJobExecution) (job_exe_id : Nat) :
    Option RunningJobExecution :=
  mgr.find? (fun e => e.id = job_exe_id)

/-- Manager removal `RunningJobExecutionManager.remove_job_exe`. -/
def remove_job_exe (mgr : List RunningJobExecution) (job_exe_id : Nat) :
    List RunningJobExecution :=
  mgr.filter (fun e => e.id ≠ job_exe_id)

/-- In-place mutation of a managed execution object (Python aliasing:
the manager holds the same object the callback mutates). -/
def update_job_exe (mgr : List RunningJobExecution) (exe : RunningJobExecution) :
    List RunningJobExecution :=
  mgr.map (fun e => if e.id = exe.id then exe else e)

/-- Manager query `RunningJobExecutionManager.get_job_exes_on_node`. -/
def get_job_exes_on_node (mgr : List RunningJobExecution) (node_id : Nat) :
    List RunningJobExecution :=
  mgr.filter (fun e => e.node_id = node_id)

/-- Modelled from the spec: a known agent in the Node Manager. -/
structure Node where
  id : Nat
  agent_id : String
  hostname : String
  is_lost : Bool := false
deriving DecidableEq, Repr

/-- Modelled from the spec: the Node Manager (`scheduler.sync.node_manager`,
not under `src/`): canonical map of known agents plus the agent ids
registered from offers and awaiting database sync. -/
structure NodeManagerState where
  nodes : List Node := []
  agent_ids : List String := []
deriving DecidableEq, Repr

/-- Lookup `NodeManager.get_node`. -/
def NodeManagerState.get_node (nm : NodeManagerState) (agent_id : String) : Option Node :=
  nm.nodes.find? (fun n => n.agent_id = agent_id)

/-- Modelled from the spec: `NodeManager.lost_node` marks the agent lost;
agents are never deleted. -/
def NodeManagerState.lost_node (nm : NodeManagerState) (agent_id : String) :
    NodeManagerState :=
  { nm with nodes := nm.nodes.map (fun n =>
      if n.agent_id = agent_id then { n with is_lost := true } else n) }

/-- Modelled from the spec: `NodeManager.add_agent_ids` registers
previously-unseen agent ids. -/
def NodeManagerState.add_agent_ids (nm : NodeManagerState) (ids : List String) :
    NodeManagerState :=
  { nm with agent_ids := nm.agent_ids ++ ids.filter (fun i => i ∉ nm.agent_ids) }

/-- The `NodeResources` vector: resource vector carried by an offer. -/
structure NodeResources where
  cpus : Nat := 0
  mem : Nat := 0
  disk : Nat := 0
deriving DecidableEq, Repr

/-- A `ResourceOffer` held by the Offer Manager. -/
structure ResourceOffer where
  offer_id : String
  agent_id : String
  resources : NodeResources
deriving DecidableEq, Repr

/-- Modelled from the spec: the Offer Manager's accumulated offers. -/
structure OfferManagerState where
  offers : List ResourceOffer := []
deriving DecidableEq, Repr

/-- Modelled from the spec: `OfferManager.lost_node` purges every offer of
the lost agent. -/
def OfferManagerState.lost_node (om : OfferManagerState) (agent_id : String) :
    OfferManagerState :=
  { offers := om.offers.filter (fun o => o.agent_id ≠ agent_id) }

/-- Modelled from the spec: `OfferManager.add_new_offers` appends. -/
def OfferManagerState.add_new_offers (om : OfferManagerState) (os : List ResourceOffer) :
    OfferManagerState :=
  { offers := om.offers ++ os }

/-- Modelled from the spec: `OfferManager.remove_offers`, idempotent removal
by offer id. -/
def OfferManagerState.remove_offers (om : OfferManagerState) (ids : List String) :
    OfferManagerState :=
  { offers := om.offers.filter (fun o => o.offer_id ∉ ids) }

/-- A background loop thread handle (`DatabaseSyncThread` / `SchedulingThread`):
the rotatable driver reference is the part the dispatcher touches. -/
structure ThreadState where
  driver : Nat
deriving DecidableEq, Repr

/-- Modelled from the spec: the `ReconciliationThread`: its rotatable driver
reference and the reconciliation set of task ids it owns
(`add_task_ids` / `remove_task_id`). -/
structure ReconThread where
  driver : Nat
  task_ids : List String := []
deriving DecidableEq, Repr

/-- The fields of `ScaleScheduler` set up by `__init__`. -/
structure SchedulerState where
  driver : Option Nat := none
  executor : Nat := 0
  framework_id : Option String := none
  master_hostname : Option String := none
  master_port : Option Nat := none
  job_exe_manager : List RunningJobExecution := []
  node_manager : NodeManagerState := {}
  offer_manager : OfferManagerState := {}
  db_sync_thread : Option ThreadState := none
  recon_thread : Option ReconThread := none
  scheduling_thread : Option ThreadState := none
deriving DecidableEq, Repr

/-- Constructor `ScaleScheduler.__init__(executor)`. -/
def initScheduler (executor : Nat) : SchedulerState :=
  { executor := executor }

/-- Exceptions the modelled collaborators raise: `django.db.DatabaseError`
from the backing store, `AttributeError` from dereferencing a `None` thread
handle. -/
inductive Exn
  | dbError
  | attrError
deriving DecidableEq, Repr

/-- Trace of collaborator calls a callback performs, in order. -/
inductive Effect
  | reconRemove (task_id : String)
  | reconAdd (task_ids : List String)
  | getTaskDirectory (hostname : String) (port : Nat) (task_id : String)
  | getTaskFile (hostname : String) (port : Nat) (task_dir fname : String)
  | getTaskUrl (hostname : String) (port : Nat) (task_dir fname : String)
  | taskRunningCall (exe_id : Nat) (task_id : String)
  | taskCompleteCall (exe_id : Nat)
  | taskFailCall (exe_id : Nat) (err : Option BuiltinError)
  | executionLostCall (exe_id : Nat)
  | removeJobExe (exe_id : Nat)
  | handleJobFailure (exe_id : Nat) (err : BuiltinError)
  | updateMaster (hostname : String) (port : Nat)
  | initSystem
  | syncJobTypes
  | syncScheduler
  | startThread (tname : String)
  | shutdownThread (tname : String)
  | nodeLostNode (agent_id : String)
  | offerLostNode (agent_id : String)
  | addAgentIds (ids : List String)
  | addNewOffers (ids : List String)
  | removeOffers (ids : List String)
  | getRunningJobExes
  | logException
deriving DecidableEq, Repr

/-- Result of one Driver callback. -/
structure CallbackResult where
  state : SchedulerState
  effects : List Effect
  raised : Option Exn := none
  handled : Bool := false
deriving DecidableEq, Repr

/-- Oracle for the external calls of `statusUpdate`: returned values of the
log fetcher and, for each fallible call site, whether it raises. -/
structure StatusOracle where
  task_dir : String := ""
  stdoutData : String := ""
  stderrData : String := ""
  fetchDirFails : Bool := false
  fetchStdoutFails : Bool := false
  fetchStderrFails : Bool := false
  probeFails : Bool := false
  urlStdoutFails : Bool := false
  urlStderrFails : Bool := false
  taskRunningFails : Bool := false
  taskCompleteFails : Bool := false
  taskFailFails : Bool := false
  handleJobFailureFails : Bool := false
deriving DecidableEq, Repr

/-- Outcome of the guarded handling of a known execution: the mutated
execution, or an exception escaping to the outer `except` clause. -/
inductive StepOutcome
  | ok (exe : RunningJobExecution)
  | exn
deriving DecidableEq, Repr

/-- The guarded best-effort stdout/stderr fetch block of `statusUpdate`
(source lines 262-272): directory probe then two file fetches, any failure
caught locally and logged. -/
def fetchLogsBlock (h : String) (p : Nat) (task_id : String) (r : TaskResults)
    (o : StatusOracle) : TaskResults × List Effect :=
  let dirEff := Effect.getTaskDirectory h p task_id
  if o.fetchDirFails then (r, [dirEff, Effect.logException])
  else
    let f1 := Effect.getTaskFile h p o.task_dir "stdout"
    if o.fetchStdoutFails then (r, [dirEff, f1, Effect.logException])
    else
      let r1 := { r with stdout := some o.stdoutData }
      let f2 := Effect.getTaskFile h p o.task_dir "stderr"
      if o.fetchStderrFails then (r1, [dirEff, f1, f2, Effect.logException])
      else ({ r1 with stderr := some o.stderrData }, [dirEff, f1, f2])

/-- The state-machine dispatch of `statusUpdate` (source lines 275-287):
unguarded directory probe and URL derivation in the RUNNING branch, then the
transition call for the status state. -/
def applyStatusTransition (exe : RunningJobExecution) (status : TaskStatus)
    (results : TaskResults) (o : StatusOracle) : StepOutcome × List Effect :=
  match status.state with
  | .running =>
    let dirEff := Effect.getTaskDirectory exe.node_hostname exe.node_port status.task_id
    if o.probeFails then (.exn, [dirEff])
    else
      let u1 := Effect.getTaskUrl exe.node_hostname exe.node_port o.task_dir "stdout"
      if o.urlStdoutFails then (.exn, [dirEff, u1])
      else
        let u2 := Effect.getTaskUrl exe.node_hostname exe.node_port o.task_dir "stderr"
        if o.urlStderrFails then (.exn, [dirEff, u1, u2])
        else
          let c := Effect.taskRunningCall exe.id status.task_id
          if o.taskRunningFails then (.exn, [dirEff, u1, u2, c])
          else (.ok exe.task_running, [dirEff, u1, u2, c])
  | .finished =>
    let c := Effect.taskCompleteCall exe.id
    if o.taskCompleteFails then (.exn, [c]) else (.ok (exe.task_complete results), [c])
  | .lost =>
    let c := Effect.taskFailCall exe.id (some .mesosLost)
    if o.taskFailFails then (.exn, [c])
    else (.ok (exe.task_fail results (some .mesosLost)), [c])
  | .error =>
    let c := Effect.taskFailCall exe.id none
    if o.taskFailFails then (.exn, [c]) else (.ok (exe.task_fail results none), [c])
  | .failed =>
    let c := Effect.taskFailCall exe.id none
    if o.taskFailFails then (.exn, [c]) else (.ok (exe.task_fail results none), [c])
  | .killed =>
    let c := Effect.taskFailCall exe.id none
    if o.taskFailFails then (.exn, [c]) else (.ok (exe.task_fail results none), [c])
  | _ => (.ok exe, [])

/-- The whole guarded handling of a known execution inside `statusUpdate`
(source lines 258-287): results record, fetch block skipped for LOST, then
the state-machine dispatch. -/
def knownExeStep (exe : RunningJobExecution) (status : TaskStatus) (o : StatusOracle) :
    StepOutcome × List Effect :=
  let results0 : TaskResults :=
    { task_id := status.task_id, exit_code := status.exit_code, when := status.timestamp }
  let fetched :=
    if status.state = TaskState.lost then (results0, ([] : List Effect))
    else fetchLogsBlock exe.node_hostname exe.node_port status.task_id results0 o
  let stepped := applyStatusTransition exe status fetched.1 o
  (stepped.1, fetched.2 ++ stepped.2)

/-- Callback `ScaleScheduler.statusUpdate(driver, status)` (source lines 231-305). -/
def statusUpdate (s : SchedulerState) (status : TaskStatus) (o : StatusOracle) :
    CallbackResult :=
  let task_id := status.task_id
  let job_exe_id := get_job_exe_id task_id
  match s.recon_thread with
  | none => { state := s, effects := [], raised := some .attrError }
  | some rt =>
    let rt1 : ReconThread := { rt with task_ids := rt.task_ids.filter (fun t => t ≠ task_id) }
    let s1 := { s with recon_thread := some rt1 }
    let entry := [Effect.reconRemove task_id]
    match get_job_exe s1.job_exe_manager job_exe_id with
    | some exe =>
      match knownExeStep exe status o with
      | (.exn, effs) =>
        { state :=
            { s1 with recon_thread := some { rt1 with task_ids := rt1.task_ids ++ [task_id] } },
          effects := entry ++ effs ++ [Effect.logException, Effect.reconAdd [task_id]],
          handled := true }
      | (.ok exe', effs) =>
        if exe'.is_finished then
          { state := { s1 with job_exe_manager := remove_job_exe s1.job_exe_manager job_exe_id },
            effects := entry ++ effs ++ [Effect.removeJobExe job_exe_id] }
        else
          { state := { s1 with job_exe_manager := update_job_exe s1.job_exe_manager exe' },
            effects := entry ++ effs }
    | none =>
      let effs := entry ++ [Effect.handleJobFailure job_exe_id .schedulerLost]
      if o.handleJobFailureFails then
        { state :=
            { s1 with recon_thread := some { rt1 with task_ids := rt1.task_ids ++ [task_id] } },
          effects := effs ++ [Effect.logException, Effect.reconAdd [task_id]],
          handled := true }
      else { state := s1, effects := effs }

/-- Oracle for `slaveLost`: whether `execution_lost` raises a `DatabaseError`
for the execution with the given id. -/
structure SlaveLostOracle where
  execLostFails : Nat → Bool

/-- The `is_finished` check after the per-execution `try` in `slaveLost`
(source lines 366-367), applied to the execution object as the callback
holds it. -/
def checkRemove (st : SchedulerState) (effs : List Effect) (exeObj : RunningJobExecution) :
    SchedulerState × List Effect :=
  if exeObj.is_finished then
    ({ st with job_exe_manager := remove_job_exe st.job_exe_manager exeObj.id },
     effs ++ [Effect.removeJobExe exeObj.id])
  else (st, effs)

/-- The per-execution loop of `slaveLost` (source lines 357-367): transition
each execution on the lost node via `execution_lost`, catching `DatabaseError`
(re-queueing the current task for reconciliation), then remove if terminal.
Dereferencing the reconciliation thread while it is `None` raises
`AttributeError` and aborts the loop. -/
def slaveLostLoop (o : SlaveLostOracle) :
    List RunningJobExecution → SchedulerState → List Effect →
    SchedulerState × List Effect × Option Exn
  | [], st, effs => (st, effs, none)
  | exe :: rest, st, effs =>
    if o.execLostFails exe.id then
      let effs1 := effs ++ [Effect.executionLostCall exe.id, Effect.logException]
      match exe.current_task with
      | some t =>
        match st.recon_thread with
        | none => (st, effs1, some Exn.attrError)
        | some rt =>
          let st1 := { st with recon_thread := some { rt with task_ids := rt.task_ids ++ [t.id] } }
          let stepped := checkRemove st1 (effs1 ++ [Effect.reconAdd [t.id]]) exe
          slaveLostLoop o rest stepped.1 stepped.2
      | none =>
        let stepped := checkRemove st effs1 exe
        slaveLostLoop o rest stepped.1 stepped.2
    else
      let exe' := exe.execution_lost
      let st1 := { st with job_exe_manager := update_job_exe st.job_exe_manager exe' }
      let stepped := checkRemove st1 (effs ++ [Effect.executionLostCall exe.id]) exe'
      slaveLostLoop o rest stepped.1 stepped.2

/-- Callback `ScaleScheduler.slaveLost(driver, slaveId)` (source lines 333-374). -/
def slaveLost (s : SchedulerState) (agent_id : String) (o : SlaveLostOracle) :
    CallbackResult :=
  let node? := s.node_manager.get_node agent_id
  let s1 := { s with node_manager := s.node_manager.lost_node agent_id,
                     offer_manager := s.offer_manager.lost_node agent_id }
  let effs0 := [Effect.nodeLostNode agent_id, Effect.offerLostNode agent_id]
  match node? with
  | none => { state := s1, effects := effs0 }
  | some node =>
    let exes := get_job_exes_on_node s1.job_exe_manager node.id
    let looped := slaveLostLoop o exes s1 effs0
    { state := looped.1, effects := looped.2.1, raised := looped.2.2 }

/-- A raw Mesos resource entry (`offer.resources[i]`: name and scalar value;
the double-valued scalar is modelled as a natural number, no claim involves
its arithmetic). -/
structure RawResource where
  name : String
  value : Nat
deriving DecidableEq, Repr

/-- A raw Mesos offer as delivered to `resourceOffers`. -/
structure RawOffer where
  offer_id : String
  agent_id : String
  resources : List RawResource
deriving DecidableEq, Repr

/-- The resource-extraction loop of `resourceOffers` (source lines 184-193):
disk, mem and cpus start at 0 and each matching entry overwrites. -/
def parseResources (rs : List RawResource) : NodeResources :=
  rs.foldl
    (fun acc r =>
      if r.name = "disk" then { acc with disk := r.value }
      else if r.name = "mem" then { acc with mem := r.value }
      else if r.name = "cpus" then { acc with cpus := r.value }
      else acc)
    {}

/-- Callback `ScaleScheduler.resourceOffers(driver, offers)` (source lines 159-206). -/
def resourceOffers (s : SchedulerState) (offers : List RawOffer) : CallbackResult :=
  let agent_ids := offers.map (fun o => o.agent_id)
  let ros := offers.map (fun o => ResourceOffer.mk o.offer_id o.agent_id (parseResources o.resources))
  { state := { s with node_manager := s.node_manager.add_agent_ids agent_ids,
                      offer_manager := s.offer_manager.add_new_offers ros },
    effects := [Effect.addAgentIds agent_ids, Effect.addNewOffers (ros.map (fun o => o.offer_id))] }

/-- Callback `ScaleScheduler.offerRescinded(driver, offerId)` (source lines 208-229). -/
def offerRescinded (s : SchedulerState) (offer_id : String) : CallbackResult :=
  { state := { s with offer_manager := s.offer_manager.remove_offers [offer_id] },
    effects := [Effect.removeOffers [offer_id]] }

/-- Callback `ScaleScheduler.frameworkMessage(driver, executorId, slaveId, message)`
(source lines 307-331): log only, no state change. -/
def frameworkMessage (s : SchedulerState) (_executor_id _agent_id _message : String) :
    CallbackResult :=
  { state := s, effects := [] }

/-- Callback `ScaleScheduler.executorLost(driver, executorId, slaveId, status)`
(source lines 376-399): log only, no state change. -/
def executorLost (s : SchedulerState) (_executor_id _agent_id : String) : CallbackResult :=
  { state := s, effects := [] }

/-- Callback `ScaleScheduler.disconnected(driver)` (source lines 145-157): log only. -/
def disconnected (s : SchedulerState) : CallbackResult :=
  { state := s, effects := [] }

/-- Callback `ScaleScheduler.error(driver, message)` (source lines 401-410): log only. -/
def errorCallback (s : SchedulerState) (_message : String) : CallbackResult :=
  { state := s, effects := [] }

/-- Oracle for `_reconcile_running_jobs`: the running executions the backing
store reports, and whether the query or the per-unknown-execution failure
marking raises a `DatabaseError`. -/
structure ReconcileOracle where
  running_ids : List Nat := []
  getRunningFails : Bool := false
  handleJobFailureFails : Bool := false
deriving DecidableEq, Repr

/-- The collection loop of `_reconcile_running_jobs` (source lines 433-441):
current task ids of known executions, `handle_job_failure(scheduler-lost)`
for unknown ones; a raising `handle_job_failure` aborts the loop. -/
def reconcileLoop (mgr : List RunningJobExecution) (o : ReconcileOracle) :
    List Nat → List String × List Effect × Option Exn
  | [] => ([], [], none)
  | id :: rest =>
    match get_job_exe mgr id with
    | some exe =>
      let tail := reconcileLoop mgr o rest
      match exe.current_task with
      | some t => (t.id :: tail.1, tail.2.1, tail.2.2)
      | none => tail
    | none =>
      let eff := Effect.handleJobFailure id .schedulerLost
      if o.handleJobFailureFails then ([], [eff], some Exn.dbError)
      else
        let tail := reconcileLoop mgr o rest
        (tail.1, eff :: tail.2.1, tail.2.2)

/-- Helper `ScaleScheduler._reconcile_running_jobs` (source lines 423-444): query
running executions, collect known executions' current task ids, fail unknown
ones as *scheduler-lost*, and hand the collected ids to the reconciliation
thread. -/
def reconcile_running_jobs (s : SchedulerState) (o : ReconcileOracle) :
    SchedulerState × List Effect × Option Exn :=
  if o.getRunningFails then (s, [Effect.getRunningJobExes], some .dbError)
  else
    let looped := reconcileLoop s.job_exe_manager o o.running_ids
    match looped.2.2 with
    | some e => (s, Effect.getRunningJobExes :: looped.2.1, some e)
    | none =>
      match s.recon_thread with
      | none => (s, Effect.getRunningJobExes :: looped.2.1, some .attrError)
      | some rt =>
        ({ s with recon_thread := some { rt with task_ids := rt.task_ids ++ looped.1 } },
         (Effect.getRunningJobExes :: looped.2.1) ++ [Effect.reconAdd looped.1], none)

/-- The `masterInfo` record as delivered to `registered`/`reregistered`. -/
structure MasterInfo where
  hostname : String
  port : Nat
deriving DecidableEq, Repr

/-- Oracle for `registered`: whether each backing-store call of the setup
sequence raises, and the reconcile-pass oracle. -/
structure RegisteredOracle where
  updateMasterFails : Bool := false
  syncJobTypesFails : Bool := false
  syncSchedulerFails : Bool := false
  recon : ReconcileOracle := {}
deriving DecidableEq, Repr

/-- Callback `ScaleScheduler.registered(driver, frameworkId, masterInfo)` (source
lines 77-119): record identities, persist the master address, initial sync,
start the three loop threads, then issue a reconcile pass. -/
def registered (s : SchedulerState) (driver : Nat) (framework_id : String)
    (mi : MasterInfo) (o : RegisteredOracle) : CallbackResult :=
  let s1 := { s with driver := some driver, framework_id := some framework_id,
                     master_hostname := some mi.hostname, master_port := some mi.port }
  let e1 := [Effect.updateMaster mi.hostname mi.port]
  if o.updateMasterFails then { state := s1, effects := e1, raised := some .dbError }
  else
    let e2 := e1 ++ [Effect.initSystem, Effect.syncJobTypes]
    if o.syncJobTypesFails then { state := s1, effects := e2, raised := some .dbError }
    else
      let e3 := e2 ++ [Effect.syncScheduler]
      if o.syncSchedulerFails then { state := s1, effects := e3, raised := some .dbError }
      else
        let s2 := { s1 with db_sync_thread := some { driver := driver },
                            recon_thread := some { driver := driver, task_ids := [] },
                            scheduling_thread := some { driver := driver } }
        let e4 := e3 ++ [Effect.startThread "db_sync", Effect.startThread "recon",
                         Effect.startThread "scheduling"]
        let rec1 := reconcile_running_jobs s2 o.recon
        { state := rec1.1, effects := e4 ++ rec1.2.1, raised := rec1.2.2 }

/-- Oracle for `reregistered`. -/
structure ReregisteredOracle where
  updateMasterFails : Bool := false
  recon : ReconcileOracle := {}
deriving DecidableEq, Repr

/-- Callback `ScaleScheduler.reregistered(driver, masterInfo)` (source lines 121-143):
update master identity and persist it, rotate the new driver into the three
already-running loop threads, then issue a reconcile pass.  Dereferencing a
`None` thread handle raises `AttributeError`. -/
def reregistered (s : SchedulerState) (driver : Nat) (mi : MasterInfo)
    (o : ReregisteredOracle) : CallbackResult :=
  let s1 := { s with driver := some driver, master_hostname := some mi.hostname,
                     master_port := some mi.port }
  let e1 := [Effect.updateMaster mi.hostname mi.port]
  if o.updateMasterFails then { state := s1, effects := e1, raised := some .dbError }
  else
    match s1.db_sync_thread with
    | none => { state := s1, effects := e1, raised := some .attrError }
    | some t1 =>
      let s2 := { s1 with db_sync_thread := some { t1 with driver := driver } }
      match s2.recon_thread with
      | none => { state := s2, effects := e1, raised := some .attrError }
      | some rt =>
        let s3 := { s2 with recon_thread := some { rt with driver := driver } }
        match s3.scheduling_thread with
        | none => { state := s3, effects := e1, raised := some .attrError }
        | some t3 =>
          let s4 := { s3 with scheduling_thread := some { t3 with driver := driver } }
          let rec1 := reconcile_running_jobs s4 o.recon
          { state := rec1.1, effects := e1 ++ rec1.2.1, raised := rec1.2.2 }

/-- Callback `ScaleScheduler.shutdown()` (source lines 412-421): signal each loop
thread to stop; dereferencing a `None` thread handle raises
`AttributeError`. -/
def shutdown (s : SchedulerState) : CallbackResult :=
  match s.db_sync_thread with
  | none => { state := s, effects := [], raised := some .attrError }
  | some _ =>
    match s.recon_thread with
    | none => { state := s, effects := [Effect.shutdownThread "db_sync"],
                raised := some .attrError }
    | some _ =>
      match s.scheduling_thread with
      | none => { state := s, effects := [Effect.shutdownThread "db_sync",
                  Effect.shutdownThread "recon"], raised := some .attrError }
      | some _ =>
        { state := s, effects := [Effect.shutdownThread "db_sync",
            Effect.shutdownThread "recon", Effect.shutdownThread "scheduling"] }

/-! ## Concrete fixtures used by witnesses and counterexamples -/

/-- A running execution used by concrete witnesses. -/
def exeEx : RunningJobExecution :=
  { id := 7, node_id := 3, node_hostname := "h", node_port := 5051,
    current_task := some ⟨"7_0"⟩ }

/-- A post-registration scheduler state used by concrete witnesses. -/
def sEx : SchedulerState :=
  { driver := some 1, job_exe_manager := [exeEx],
    node_manager := { nodes := [{ id := 3, agent_id := "a1", hostname := "h" }] },
    offer_manager := { offers := [⟨"o1", "a1", {}⟩, ⟨"o2", "a2", {}⟩] },
    db_sync_thread := some ⟨1⟩, recon_thread := some ⟨1, ["7_0", "x"]⟩,
    scheduling_thread := some ⟨1⟩ }

/-! ## Theorems -/

/-- C1: every `statusUpdate` invocation removes the status's `task_id`
from the reconciliation set first, before any handling: the first collaborator
call of the trace is the removal, for every status state and also when the
decoded `job_exe_id` is unknown to the running-execution manager; and unless
the exception handler re-added it, the task id is not in the final
reconciliation set. -/
theorem statusUpdate_removes_recon_first (s : SchedulerState) (status : TaskStatus)
    (o : StatusOracle) (rt : ReconThread) (hrt : s.recon_thread = some rt) :
    (statusUpdate s status o).effects.head? = some (Effect.reconRemove status.task_id) ∧
    ((statusUpdate s status o).handled = false →
      ∀ rt', (statusUpdate s status o).state.recon_thread = some rt' →
        status.task_id ∉ rt'.task_ids) := by
  simp only [statusUpdate, hrt]
  rcases hge : get_job_exe s.job_exe_manager (get_job_exe_id status.task_id) with _ | exe
  · by_cases hf : o.handleJobFailureFails <;>
      simp [hf, List.mem_filter]
  · rcases hks : knownExeStep exe status o with ⟨out, effs⟩
    cases out with
    | exn => simp [hks]
    | ok exe' =>
      by_cases hfin : exe'.is_finished <;> simp [hks, hfin, List.mem_filter]

/-- Witness for C1 at a concrete input. -/
theorem statusUpdate_removes_recon_first_witness :
    sEx.recon_thread = some ⟨1, ["7_0", "x"]⟩ ∧
    ((statusUpdate sEx { task_id := "7_0", state := .finished } {}).effects.head? =
        some (Effect.reconRemove "7_0") ∧
      ((statusUpdate sEx { task_id := "7_0", state := .finished } {}).handled = false →
        ∀ rt', (statusUpdate sEx { task_id := "7_0", state := .finished } {}).state.recon_thread =
            some rt' → "7_0" ∉ rt'.task_ids)) :=
  ⟨rfl, statusUpdate_removes_recon_first sEx { task_id := "7_0", state := .finished } {} ⟨1, ["7_0", "x"]⟩ rfl⟩

/-- C3 counterexample: a `statusUpdate` for an unknown `job_exe_id` whose
failure marking itself raises re-adds the `task_id` to the reconciliation
set, contradicting the unconditional "is not (re-)added" of the claim. -/
theorem statusUpdate_unknown_counterexample :
    get_job_exe sEx.job_exe_manager (get_job_exe_id "9_0") = none ∧
    (statusUpdate sEx { task_id := "9_0", state := .finished }
        { handleJobFailureFails := true }).state.recon_thread =
      some ⟨1, ["7_0", "x", "9_0"]⟩ ∧
    Effect.reconAdd ["9_0"] ∈ (statusUpdate sEx { task_id := "9_0", state := .finished }
        { handleJobFailureFails := true }).effects := by
  decide

/-- C3 (amended): for a `statusUpdate` whose decoded `job_exe_id` is
unknown to the manager, the execution is marked failed via
`Queue.handle_job_failure` with builtin error *scheduler-lost*; provided that
marking raises no exception, the `task_id` is not (re-)added to the
reconciliation set. -/
theorem statusUpdate_unknown_schedulerLost (s : SchedulerState) (status : TaskStatus)
    (o : StatusOracle) (rt : ReconThread) (hrt : s.recon_thread = some rt)
    (hunk : get_job_exe s.job_exe_manager (get_job_exe_id status.task_id) = none)
    (hok : o.handleJobFailureFails = false) :
    Effect.handleJobFailure (get_job_exe_id status.task_id) .schedulerLost ∈
      (statusUpdate s status o).effects ∧
    Effect.reconAdd [status.task_id] ∉ (statusUpdate s status o).effects ∧
    (∀ rt', (statusUpdate s status o).state.recon_thread = some rt' →
      status.task_id ∉ rt'.task_ids) := by
  simp only [statusUpdate, hrt]
  simp [hunk, hok, List.mem_filter]

/-- Witness for C3 (amended) at a concrete input. -/
theorem statusUpdate_unknown_schedulerLost_witness :
    sEx.recon_thread = some ⟨1, ["7_0", "x"]⟩ ∧
    get_job_exe sEx.job_exe_manager (get_job_exe_id "9_0") = none ∧
    (Effect.handleJobFailure (get_job_exe_id "9_0") .schedulerLost ∈
        (statusUpdate sEx { task_id := "9_0", state := .finished } {}).effects ∧
      Effect.reconAdd ["9_0"] ∉ (statusUpdate sEx { task_id := "9_0", state := .finished } {}).effects ∧
      (∀ rt', (statusUpdate sEx { task_id := "9_0", state := .finished } {}).state.recon_thread =
          some rt' → "9_0" ∉ rt'.task_ids)) :=
  ⟨rfl, by decide,
    statusUpdate_unknown_schedulerLost sEx { task_id := "9_0", state := .finished } {}
      ⟨1, ["7_0", "x"]⟩ rfl (by decide) rfl⟩

/-- C4: whenever an exception escapes the handling part of `statusUpdate`
(after the entry removal), the `task_id` is re-added to the reconciliation
set, the exception is logged, and nothing propagates to the Driver. -/
theorem statusUpdate_exception_readds (s : SchedulerState) (status : TaskStatus)
    (o : StatusOracle) (rt : ReconThread) (hrt : s.recon_thread = some rt)
    (hh : (statusUpdate s status o).handled = true) :
    (∃ rt', (statusUpdate s status o).state.recon_thread = some rt' ∧
      status.task_id ∈ rt'.task_ids) ∧
    Effect.logException ∈ (statusUpdate s status o).effects ∧
    Effect.reconAdd [status.task_id] ∈ (statusUpdate s status o).effects ∧
    (statusUpdate s status o).raised = none := by
  simp only [statusUpdate, hrt] at hh ⊢
  rcases hge : get_job_exe s.job_exe_manager (get_job_exe_id status.task_id) with _ | exe <;>
    simp only [hge] at hh ⊢
  · by_cases hf : o.handleJobFailureFails
    · simp [hf]
    · simp [hf] at hh
  · rcases hks : knownExeStep exe status o with ⟨out, effs⟩
    simp only [hks] at hh ⊢
    cases out with
    | exn => simp
    | ok exe' =>
      by_cases hfin : exe'.is_finished <;> simp [hfin] at hh

/-- Witness for C4 at a concrete input: the unknown-execution failure marking
raises, so the outer handler fires. -/
theorem statusUpdate_exception_readds_witness :
    sEx.recon_thread = some ⟨1, ["7_0", "x"]⟩ ∧
    (statusUpdate sEx { task_id := "9_0", state := .finished }
        { handleJobFailureFails := true }).handled = true ∧
    ((∃ rt', (statusUpdate sEx { task_id := "9_0", state := .finished }
          { handleJobFailureFails := true }).state.recon_thread = some rt' ∧
        "9_0" ∈ rt'.task_ids) ∧
      Effect.logException ∈ (statusUpdate sEx { task_id := "9_0", state := .finished }
          { handleJobFailureFails := true }).effects ∧
      Effect.reconAdd ["9_0"] ∈ (statusUpdate sEx { task_id := "9_0", state := .finished }
          { handleJobFailureFails := true }).effects ∧
      (statusUpdate sEx { task_id := "9_0", state := .finished }
          { handleJobFailureFails := true }).raised = none) :=
  ⟨rfl, by decide,
    statusUpdate_exception_readds sEx { task_id := "9_0", state := .finished }
      { handleJobFailureFails := true } ⟨1, ["7_0", "x"]⟩ rfl (by decide)⟩

/-- Evaluation of `knownExeStep` on a LOST status: it performs exactly the *mesos-lost* failure
transition call: no fetch, and the outcome is the failed execution unless
the transition call raises. -/
theorem knownExeStep_lost (exe : RunningJobExecution) (status : TaskStatus)
    (o : StatusOracle) (hlost : status.state = TaskState.lost) :
    knownExeStep exe status o =
      (if o.taskFailFails then (StepOutcome.exn, [Effect.taskFailCall exe.id (some .mesosLost)])
       else
        (StepOutcome.ok (exe.task_fail
          { task_id := status.task_id, exit_code := status.exit_code, when := status.timestamp }
          (some .mesosLost)), [Effect.taskFailCall exe.id (some .mesosLost)])) := by
  by_cases hf : o.taskFailFails <;>
    simp [knownExeStep, applyStatusTransition, hlost, hf]

/-- The FINISHED transition call always happens in `knownExeStep`. -/
theorem knownExeStep_finished_call (exe : RunningJobExecution) (status : TaskStatus)
    (o : StatusOracle) (h : status.state = TaskState.finished) :
    Effect.taskCompleteCall exe.id ∈ (knownExeStep exe status o).2 := by
  simp only [knownExeStep, applyStatusTransition, h]
  by_cases hc : o.taskCompleteFails <;>
    by_cases h1 : o.fetchDirFails <;> by_cases h2 : o.fetchStdoutFails <;>
      by_cases h3 : o.fetchStderrFails <;>
        simp [fetchLogsBlock, h1, h2, h3, hc]

/-- The failure transition call always happens in `knownExeStep` for the
ERROR, FAILED and KILLED states. -/
theorem knownExeStep_fail_call (exe : RunningJobExecution) (status : TaskStatus)
    (o : StatusOracle)
    (h : status.state = TaskState.failed ∨ status.state = TaskState.killed ∨
      status.state = TaskState.error) :
    Effect.taskFailCall exe.id none ∈ (knownExeStep exe status o).2 := by
  rcases h with h | h | h <;>
  · simp only [knownExeStep, applyStatusTransition, h]
    by_cases hc : o.taskFailFails <;>
      by_cases h1 : o.fetchDirFails <;> by_cases h2 : o.fetchStdoutFails <;>
        by_cases h3 : o.fetchStderrFails <;>
          simp [fetchLogsBlock, h1, h2, h3, hc]

/-- The RUNNING transition call happens in `knownExeStep` when the unguarded
probe and URL derivations do not raise. -/
theorem knownExeStep_running_call (exe : RunningJobExecution) (status : TaskStatus)
    (o : StatusOracle) (h : status.state = TaskState.running)
    (hp : o.probeFails = false) (hu1 : o.urlStdoutFails = false)
    (hu2 : o.urlStderrFails = false) :
    Effect.taskRunningCall exe.id status.task_id ∈ (knownExeStep exe status o).2 := by
  simp only [knownExeStep, applyStatusTransition, h]
  by_cases hc : o.taskRunningFails <;>
    by_cases h1 : o.fetchDirFails <;> by_cases h2 : o.fetchStdoutFails <;>
      by_cases h3 : o.fetchStderrFails <;>
        simp [fetchLogsBlock, h1, h2, h3, hc, hp, hu1, hu2]

/-- A failing guarded fetch is logged inside `knownExeStep` for every
non-LOST status state. -/
theorem knownExeStep_fetch_logged (exe : RunningJobExecution) (status : TaskStatus)
    (o : StatusOracle) (h : status.state ≠ TaskState.lost)
    (hd : o.fetchDirFails = true) :
    Effect.logException ∈ (knownExeStep exe status o).2 := by
  simp only [knownExeStep]
  rw [if_neg (by simp [h])]
  simp [fetchLogsBlock, hd]

/-- When the unguarded RUNNING-branch probe raises, `knownExeStep` escapes to
the outer handler without invoking the RUNNING transition. -/
theorem knownExeStep_running_probe (exe : RunningJobExecution) (status : TaskStatus)
    (o : StatusOracle) (h : status.state = TaskState.running)
    (hp : o.probeFails = true) :
    (knownExeStep exe status o).1 = StepOutcome.exn ∧
    (∀ i t, Effect.taskRunningCall i t ∉ (knownExeStep exe status o).2) := by
  simp only [knownExeStep, applyStatusTransition, h]
  by_cases h1 : o.fetchDirFails <;> by_cases h2 : o.fetchStdoutFails <;>
    by_cases h3 : o.fetchStderrFails <;>
      simp [fetchLogsBlock, h1, h2, h3, hp]

/-- A successful `knownExeStep` outcome carries the same execution id. -/
theorem knownExeStep_ok_id (exe : RunningJobExecution) (status : TaskStatus)
    (o : StatusOracle) (exe' : RunningJobExecution)
    (h : (knownExeStep exe status o).1 = StepOutcome.ok exe') : exe'.id = exe.id := by
  cases hst : status.state <;>
    simp only [knownExeStep, applyStatusTransition, hst] at h <;>
    (try split_ifs at h) <;>
    simp_all [RunningJobExecution.task_running, RunningJobExecution.task_complete,
      RunningJobExecution.task_fail] <;>
    subst h <;> rfl

/-- Every collaborator call of the guarded known-execution handling appears
in the trace of `statusUpdate`. -/
theorem statusUpdate_known_effects_sub (s : SchedulerState) (status : TaskStatus)
    (o : StatusOracle) (rt : ReconThread) (exe : RunningJobExecution)
    (hrt : s.recon_thread = some rt)
    (hknown : get_job_exe s.job_exe_manager (get_job_exe_id status.task_id) = some exe) :
    ∀ e ∈ (knownExeStep exe status o).2, e ∈ (statusUpdate s status o).effects := by
  intro e he
  simp only [statusUpdate, hrt]
  simp only [hknown]
  rcases hks : knownExeStep exe status o with ⟨out, effs⟩
  rw [hks] at he
  cases out with
  | exn => simp [he]
  | ok exe' => by_cases hfin : exe'.is_finished <;> simp [hfin, he]

/-- When the known-execution handling escapes with an exception, the outer
handler of `statusUpdate` fires and the trace is the entry removal, the
handling calls, the exception log and the reconciliation re-add. -/
theorem statusUpdate_known_exn (s : SchedulerState) (status : TaskStatus)
    (o : StatusOracle) (rt : ReconThread) (exe : RunningJobExecution)
    (hrt : s.recon_thread = some rt)
    (hknown : get_job_exe s.job_exe_manager (get_job_exe_id status.task_id) = some exe)
    (hexn : (knownExeStep exe status o).1 = StepOutcome.exn) :
    (statusUpdate s status o).handled = true ∧
    (statusUpdate s status o).effects =
      Effect.reconRemove status.task_id ::
        ((knownExeStep exe status o).2 ++
          [Effect.logException, Effect.reconAdd [status.task_id]]) := by
  simp only [statusUpdate, hrt]
  simp only [hknown]
  rcases hks : knownExeStep exe status o with ⟨out, effs⟩
  rw [hks] at hexn
  cases out with
  | exn => simp [hks]
  | ok exe' => simp at hexn

/-- C6: a `statusUpdate` with state LOST on a known execution attempts no
stdout/stderr retrieval at all — no task-directory probe, no file fetch, no
URL derivation — and the execution's state machine receives the failure
transition carrying the builtin error *mesos-lost*. -/
theorem statusUpdate_lost_no_fetch (s : SchedulerState) (status : TaskStatus)
    (o : StatusOracle) (rt : ReconThread) (exe : RunningJobExecution)
    (hrt : s.recon_thread = some rt)
    (hlost : status.state = TaskState.lost)
    (hknown : get_job_exe s.job_exe_manager (get_job_exe_id status.task_id) = some exe) :
    Effect.taskFailCall exe.id (some .mesosLost) ∈ (statusUpdate s status o).effects ∧
    (∀ h p t, Effect.getTaskDirectory h p t ∉ (statusUpdate s status o).effects) ∧
    (∀ h p d f, Effect.getTaskFile h p d f ∉ (statusUpdate s status o).effects) ∧
    (∀ h p d f, Effect.getTaskUrl h p d f ∉ (statusUpdate s status o).effects) := by
  simp only [statusUpdate, hrt]
  simp only [hknown, knownExeStep_lost exe status o hlost]
  by_cases hf : o.taskFailFails
  · simp [hf]
  · simp [hf, RunningJobExecution.task_fail, RunningJobExecution.is_finished,
      ExecState.isTerminal]

/-- Witness for C6 at a concrete input. -/
theorem statusUpdate_lost_no_fetch_witness :
    sEx.recon_thread = some ⟨1, ["7_0", "x"]⟩ ∧
    get_job_exe sEx.job_exe_manager (get_job_exe_id "7_0") = some exeEx ∧
    (Effect.taskFailCall exeEx.id (some .mesosLost) ∈
        (statusUpdate sEx { task_id := "7_0", state := .lost } {}).effects ∧
      (∀ h p t, Effect.getTaskDirectory h p t ∉
        (statusUpdate sEx { task_id := "7_0", state := .lost } {}).effects) ∧
      (∀ h p d f, Effect.getTaskFile h p d f ∉
        (statusUpdate sEx { task_id := "7_0", state := .lost } {}).effects) ∧
      (∀ h p d f, Effect.getTaskUrl h p d f ∉
        (statusUpdate sEx { task_id := "7_0", state := .lost } {}).effects)) :=
  ⟨rfl, by decide,
    statusUpdate_lost_no_fetch sEx { task_id := "7_0", state := .lost } {}
      ⟨1, ["7_0", "x"]⟩ exeEx rfl rfl (by decide)⟩

/-- C7 counterexample: on a known execution with state RUNNING, a raising
task-directory probe is fatal to the transition: the outer handler fires, the
RUNNING transition is never invoked, and the execution is left untouched —
contradicting the claim that a log-retrieval failure never alters the
transition. -/
theorem statusUpdate_running_probe_counterexample :
    (statusUpdate sEx { task_id := "7_0", state := .running }
        { probeFails := true }).handled = true ∧
    Effect.taskRunningCall 7 "7_0" ∉ (statusUpdate sEx { task_id := "7_0", state := .running }
        { probeFails := true }).effects ∧
    (statusUpdate sEx { task_id := "7_0", state := .running }
        { probeFails := true }).state.job_exe_manager = sEx.job_exe_manager := by
  decide

/-- C7 (amended): on a known execution, a failure of the *guarded*
stdout/stderr content fetch is non-fatal for every non-LOST state: it is
logged and the state-machine transition call for that status state still
occurs (FINISHED, FAILED, KILLED, ERROR unconditionally; RUNNING when the
unguarded probe and URL derivations do not raise).  In the RUNNING branch,
however, the probe and URL derivation are unguarded: their failure aborts
the transition and routes to the generic exception handler. -/
theorem statusUpdate_log_fetch_nonfatal (s : SchedulerState) (status : TaskStatus)
    (o : StatusOracle) (rt : ReconThread) (exe : RunningJobExecution)
    (hrt : s.recon_thread = some rt)
    (hknown : get_job_exe s.job_exe_manager (get_job_exe_id status.task_id) = some exe) :
    (status.state = TaskState.finished →
      Effect.taskCompleteCall exe.id ∈ (statusUpdate s status o).effects) ∧
    ((status.state = TaskState.failed ∨ status.state = TaskState.killed ∨
        status.state = TaskState.error) →
      Effect.taskFailCall exe.id none ∈ (statusUpdate s status o).effects) ∧
    (status.state = TaskState.running → o.probeFails = false →
      o.urlStdoutFails = false → o.urlStderrFails = false →
      Effect.taskRunningCall exe.id status.task_id ∈ (statusUpdate s status o).effects) ∧
    (status.state ≠ TaskState.lost → o.fetchDirFails = true →
      Effect.logException ∈ (statusUpdate s status o).effects) ∧
    (status.state = TaskState.running → o.probeFails = true →
      Effect.taskRunningCall exe.id status.task_id ∉ (statusUpdate s status o).effects ∧
      (statusUpdate s status o).handled = true) := by
  refine ⟨?_, ?_, ?_, ?_, ?_⟩
  · intro h
    exact statusUpdate_known_effects_sub s status o rt exe hrt hknown _
      (knownExeStep_finished_call exe status o h)
  · intro h
    exact statusUpdate_known_effects_sub s status o rt exe hrt hknown _
      (knownExeStep_fail_call exe status o h)
  · intro h hp hu1 hu2
    exact statusUpdate_known_effects_sub s status o rt exe hrt hknown _
      (knownExeStep_running_call exe status o h hp hu1 hu2)
  · intro h hd
    exact statusUpdate_known_effects_sub s status o rt exe hrt hknown _
      (knownExeStep_fetch_logged exe status o h hd)
  · intro h hp
    obtain ⟨hexn, hnot⟩ := knownExeStep_running_probe exe status o h hp
    obtain ⟨hh, heq⟩ := statusUpdate_known_exn s status o rt exe hrt hknown hexn
    refine ⟨?_, hh⟩
    rw [heq]
    simp [hnot]

/-- Witness for C7 (amended) at a concrete input. -/
theorem statusUpdate_log_fetch_nonfatal_witness :
    sEx.recon_thread = some ⟨1, ["7_0", "x"]⟩ ∧
    get_job_exe sEx.job_exe_manager (get_job_exe_id "7_0") = some exeEx ∧
    (TaskState.finished = TaskState.finished →
      Effect.taskCompleteCall exeEx.id ∈
        (statusUpdate sEx { task_id := "7_0", state := .finished }
          { fetchDirFails := true }).effects) ∧
    (TaskState.finished ≠ TaskState.lost → true = true →
      Effect.logException ∈ (statusUpdate sEx { task_id := "7_0", state := .finished }
        { fetchDirFails := true }).effects) := by
  have h := statusUpdate_log_fetch_nonfatal sEx
    { task_id := "7_0", state := .finished } { fetchDirFails := true }
    ⟨1, ["7_0", "x"]⟩ exeEx rfl (by decide)
  exact ⟨rfl, by decide, fun _ => h.1 rfl, fun _ _ => h.2.2.2.1 (by decide) rfl⟩

/-- The in-place mutation of a managed execution preserves the id roster. -/
theorem ids_update_job_exe (mgr : List RunningJobExecution) (exe : RunningJobExecution) :
    (update_job_exe mgr exe).map (fun e => e.id) = mgr.map (fun e => e.id) := by
  induction mgr with
  | nil => rfl
  | cons e es ih =>
    by_cases h : e.id = exe.id <;> simp_all [update_job_exe, h]

/-- Membership in the id roster after a removal. -/
theorem mem_ids_remove (mgr : List RunningJobExecution) (j i : Nat) :
    i ∈ (remove_job_exe mgr j).map (fun e => e.id) ↔
      i ∈ mgr.map (fun e => e.id) ∧ i ≠ j := by
  simp only [remove_job_exe, List.mem_map, List.mem_filter, decide_not,
    Bool.not_eq_eq_eq_not, Bool.not_true, decide_eq_false_iff_not]
  constructor
  · rintro ⟨e, ⟨he, hne⟩, rfl⟩
    exact ⟨⟨e, he, rfl⟩, hne⟩
  · rintro ⟨⟨e, he, rfl⟩, hne⟩
    exact ⟨e, ⟨he, hne⟩, rfl⟩

/-- The `slaveLost` loop leaves the Offer Manager alone. -/
theorem slaveLostLoop_offers (o : SlaveLostOracle) (exes : List RunningJobExecution) :
    ∀ st effs, (slaveLostLoop o exes st effs).1.offer_manager = st.offer_manager := by
  induction exes with
  | nil => intro st effs; rfl
  | cons exe rest ih =>
    intro st effs
    by_cases hfail : o.execLostFails exe.id
    · rcases hct : exe.current_task with _ | t
      · by_cases hfin : exe.is_finished <;>
          simp only [slaveLostLoop, hfail, hct, checkRemove, hfin, if_true, if_false] <;>
          exact ih _ _
      · rcases hrt : st.recon_thread with _ | rt
        · simp [slaveLostLoop, hfail, hct, hrt]
        · by_cases hfin : exe.is_finished <;>
            simp only [slaveLostLoop, hfail, hct, hrt, checkRemove, hfin, if_true, if_false] <;>
            exact ih _ _
    · have hfin : (exe.execution_lost).is_finished = true := rfl
      simp only [slaveLostLoop, hfail, checkRemove, hfin, if_true, Bool.false_eq_true, if_false]
      exact ih _ _

/-- The `slaveLost` loop leaves the Node Manager alone. -/
theorem slaveLostLoop_nodes (o : SlaveLostOracle) (exes : List RunningJobExecution) :
    ∀ st effs, (slaveLostLoop o exes st effs).1.node_manager = st.node_manager := by
  induction exes with
  | nil => intro st effs; rfl
  | cons exe rest ih =>
    intro st effs
    by_cases hfail : o.execLostFails exe.id
    · rcases hct : exe.current_task with _ | t
      · by_cases hfin : exe.is_finished <;>
          simp only [slaveLostLoop, hfail, hct, checkRemove, hfin, if_true, if_false] <;>
          exact ih _ _
      · rcases hrt : st.recon_thread with _ | rt
        · simp [slaveLostLoop, hfail, hct, hrt]
        · by_cases hfin : exe.is_finished <;>
            simp only [slaveLostLoop, hfail, hct, hrt, checkRemove, hfin, if_true, if_false] <;>
            exact ih _ _
    · have hfin : (exe.execution_lost).is_finished = true := rfl
      simp only [slaveLostLoop, hfail, checkRemove, hfin, if_true, Bool.false_eq_true, if_false]
      exact ih _ _

/-- The `slaveLost` loop only appends to the trace. -/
theorem slaveLostLoop_effects_mono (o : SlaveLostOracle) (exes : List RunningJobExecution) :
    ∀ st effs e, e ∈ effs → e ∈ (slaveLostLoop o exes st effs).2.1 := by
  induction exes with
  | nil => intro st effs e he; exact he
  | cons exe rest ih =>
    intro st effs e he
    by_cases hfail : o.execLostFails exe.id
    · rcases hct : exe.current_task with _ | t
      · by_cases hfin : exe.is_finished <;>
          simp only [slaveLostLoop, hfail, hct, checkRemove, hfin, if_true, if_false] <;>
          exact ih _ _ _ (by simp [he])
      · rcases hrt : st.recon_thread with _ | rt
        · simp [slaveLostLoop, hfail, hct, hrt, he]
        · by_cases hfin : exe.is_finished <;>
            simp only [slaveLostLoop, hfail, hct, hrt, checkRemove, hfin, if_true, if_false] <;>
            exact ih _ _ _ (by simp [he])
    · have hfin : (exe.execution_lost).is_finished = true := rfl
      simp only [slaveLostLoop, hfail, checkRemove, hfin, if_true, Bool.false_eq_true, if_false]
      exact ih _ _ _ (by simp [he])

/-- While the reconciliation thread exists, the `slaveLost` loop keeps it,
only extends its task set, and raises nothing. -/
theorem slaveLostLoop_recon (o : SlaveLostOracle) (exes : List RunningJobExecution) :
    ∀ st effs rt, st.recon_thread = some rt →
      ∃ rt', (slaveLostLoop o exes st effs).1.recon_thread = some rt' ∧
        (∀ t ∈ rt.task_ids, t ∈ rt'.task_ids) ∧
        (slaveLostLoop o exes st effs).2.2 = none := by
  induction exes with
  | nil => intro st effs rt h; exact ⟨rt, h, fun t ht => ht, rfl⟩
  | cons exe rest ih =>
    intro st effs rt h
    by_cases hfail : o.execLostFails exe.id
    · rcases hct : exe.current_task with _ | t
      · by_cases hfin : exe.is_finished <;>
          simp only [slaveLostLoop, hfail, hct, checkRemove, hfin, if_true, if_false] <;>
          exact ih _ _ rt h
      · rw [slaveLostLoop]
        simp only [hfail, hct, h, if_true]
        by_cases hfin : exe.is_finished
        · simp only [checkRemove, hfin, if_true]
          obtain ⟨rt', h1, h2, h3⟩ :=
            ih { st with job_exe_manager := remove_job_exe st.job_exe_manager exe.id,
                         recon_thread :=
                           some { driver := rt.driver, task_ids := rt.task_ids ++ [t.id] } }
              (effs ++ [Effect.executionLostCall exe.id, Effect.logException] ++
                [Effect.reconAdd [t.id]] ++ [Effect.removeJobExe exe.id])
              { driver := rt.driver, task_ids := rt.task_ids ++ [t.id] } rfl
          exact ⟨rt', h1, fun t0 ht0 => h2 t0 (by simp [ht0]), h3⟩
        · simp only [checkRemove, hfin, if_false]
          obtain ⟨rt', h1, h2, h3⟩ :=
            ih { st with recon_thread :=
                           some { driver := rt.driver, task_ids := rt.task_ids ++ [t.id] } }
              (effs ++ [Effect.executionLostCall exe.id, Effect.logException] ++
                [Effect.reconAdd [t.id]])
              { driver := rt.driver, task_ids := rt.task_ids ++ [t.id] } rfl
          exact ⟨rt', h1, fun t0 ht0 => h2 t0 (by simp [ht0]), h3⟩
    · have hfin : (exe.execution_lost).is_finished = true := rfl
      simp only [slaveLostLoop, hfail, checkRemove, hfin, if_true, Bool.false_eq_true, if_false]
      exact ih _ _ rt h

/-- The scheduler state after one iteration of the `slaveLost` loop (factored
out of `slaveLostLoop` for reasoning; `slaveLostLoop_cons_eq` ties it back). -/
def slaveLostStepState (o : SlaveLostOracle) (exe : RunningJobExecution)
    (st : SchedulerState) : SchedulerState :=
  if o.execLostFails exe.id then
    let st1 :=
      match exe.current_task with
      | some t =>
        match st.recon_thread with
        | none => st
        | some rt =>
          { st with recon_thread := some { rt with task_ids := rt.task_ids ++ [t.id] } }
      | none => st
    if exe.is_finished then
      { st1 with job_exe_manager := remove_job_exe st1.job_exe_manager exe.id }
    else st1
  else
    { st with job_exe_manager :=
        remove_job_exe (update_job_exe st.job_exe_manager exe.execution_lost) exe.id }

/-- The trace after one iteration of the `slaveLost` loop. -/
def slaveLostStepEffs (o : SlaveLostOracle) (exe : RunningJobExecution)
    (effs : List Effect) : List Effect :=
  if o.execLostFails exe.id then
    let effs1 := effs ++ [Effect.executionLostCall exe.id, Effect.logException]
    let effs2 :=
      match exe.current_task with
      | some t => effs1 ++ [Effect.reconAdd [t.id]]
      | none => effs1
    if exe.is_finished then effs2 ++ [Effect.removeJobExe exe.id] else effs2
  else
    effs ++ [Effect.executionLostCall exe.id] ++ [Effect.removeJobExe exe.id]

/-- While the reconciliation thread exists, an iteration of the `slaveLost`
loop is the factored step followed by the loop on the rest. -/
theorem slaveLostLoop_cons_eq (o : SlaveLostOracle) (exe : RunningJobExecution)
    (rest : List RunningJobExecution) (st : SchedulerState) (effs : List Effect)
    (rt : ReconThread) (hrt : st.recon_thread = some rt) :
    slaveLostLoop o (exe :: rest) st effs =
      slaveLostLoop o rest (slaveLostStepState o exe st) (slaveLostStepEffs o exe effs) := by
  by_cases hfail : o.execLostFails exe.id
  · rcases hct : exe.current_task with _ | t
    · by_cases hfin : exe.is_finished <;>
        simp [slaveLostLoop, slaveLostStepState, slaveLostStepEffs, checkRemove,
          hfail, hct, hrt, hfin]
    · by_cases hfin : exe.is_finished <;>
        simp [slaveLostLoop, slaveLostStepState, slaveLostStepEffs, checkRemove,
          hfail, hct, hrt, hfin]
  · have hfin : (exe.execution_lost).is_finished = true := rfl
    simp only [slaveLostLoop, slaveLostStepState, slaveLostStepEffs, checkRemove, hfail,
      hfin, if_true, Bool.false_eq_true, if_false]
    rfl

/-- The factored step keeps the reconciliation thread, only extends its task
set, and records the failing execution's current task in it. -/
theorem slaveLostStepState_recon (o : SlaveLostOracle) (exe : RunningJobExecution)
    (st : SchedulerState) (rt : ReconThread) (hrt : st.recon_thread = some rt) :
    ∃ rt2, (slaveLostStepState o exe st).recon_thread = some rt2 ∧
      (∀ x ∈ rt.task_ids, x ∈ rt2.task_ids) ∧
      (o.execLostFails exe.id = true → ∀ t, exe.current_task = some t →
        t.id ∈ rt2.task_ids) := by
  by_cases hfail : o.execLostFails exe.id
  · rcases hct : exe.current_task with _ | t
    · by_cases hfin : exe.is_finished <;>
      · refine ⟨rt, ?_, fun x hx => hx, ?_⟩
        · simp [slaveLostStepState, hfail, hct, hrt, hfin]
        · intro h t ht
          simp [hct] at ht
    · by_cases hfin : exe.is_finished <;>
      · refine ⟨{ rt with task_ids := rt.task_ids ++ [t.id] }, ?_, fun x hx => by simp [hx], ?_⟩
        · simp [slaveLostStepState, hfail, hct, hrt, hfin]
        · intro h t0 ht0
          simp [hct] at ht0
          subst ht0
          simp
  · refine ⟨rt, ?_, fun x hx => hx, fun h => absurd h hfail⟩
    simp [slaveLostStepState, hfail, hrt]

/-- An id is never a member of the roster it was removed from. -/
theorem not_mem_ids_remove_self (mgr : List RunningJobExecution) (j : Nat) :
    j ∉ (remove_job_exe mgr j).map (fun e => e.id) := by
  intro h
  rw [mem_ids_remove] at h
  exact h.2 rfl

/-- The factored step removes the execution from the manager whenever the
transition succeeded (always terminal) or the execution was already
terminal. -/
theorem slaveLostStepState_removes (o : SlaveLostOracle) (exe : RunningJobExecution)
    (st : SchedulerState)
    (h : o.execLostFails exe.id = false ∨ exe.is_finished = true) :
    exe.id ∉ (slaveLostStepState o exe st).job_exe_manager.map (fun e => e.id) := by
  by_cases hfail : o.execLostFails exe.id
  · have hfin : exe.is_finished = true := by
      rcases h with h | h
      · rw [h] at hfail; cases hfail
      · exact h
    rcases hct : exe.current_task with _ | t <;>
      rcases hrt : st.recon_thread with _ | rt <;>
      · simp only [slaveLostStepState, hfail, hct, hrt, hfin, if_true]
        exact not_mem_ids_remove_self _ _
  · simp only [slaveLostStepState, hfail, Bool.false_eq_true, if_false]
    exact not_mem_ids_remove_self _ _

/-- The factored step keeps every execution it should not remove: an id stays
in the manager provided the step's own execution either has a different id or
fails its transition while non-terminal. -/
theorem slaveLostStepState_keeps (o : SlaveLostOracle) (exe : RunningJobExecution)
    (st : SchedulerState) (i : Nat)
    (hi : i ∈ st.job_exe_manager.map (fun e => e.id))
    (h : exe.id = i → o.execLostFails exe.id = true ∧ exe.is_finished = false) :
    i ∈ (slaveLostStepState o exe st).job_exe_manager.map (fun e => e.id) := by
  by_cases hid : exe.id = i
  · obtain ⟨hfail, hfin⟩ := h hid
    rcases hct : exe.current_task with _ | t <;>
      rcases hrt : st.recon_thread with _ | rt <;>
        simp [slaveLostStepState, hfail, hct, hrt, hfin, hi]
  · have hne : i ≠ exe.id := fun hh => hid hh.symm
    by_cases hfail : o.execLostFails exe.id
    · rcases hct : exe.current_task with _ | t <;>
        rcases hrt : st.recon_thread with _ | rt <;>
          by_cases hfin : exe.is_finished <;>
            simp only [slaveLostStepState, hfail, hct, hrt, hfin, if_true,
              Bool.false_eq_true, if_false] <;>
            first
              | (rw [mem_ids_remove]; exact ⟨hi, hne⟩)
              | exact hi
    · simp only [slaveLostStepState, hfail, Bool.false_eq_true, if_false]
      rw [mem_ids_remove, ids_update_job_exe]
      exact ⟨hi, hne⟩

/-- The factored step's trace contains the `execution_lost` call and keeps
every effect already recorded. -/
theorem slaveLostStepEffs_mem (o : SlaveLostOracle) (exe : RunningJobExecution)
    (effs : List Effect) :
    Effect.executionLostCall exe.id ∈ slaveLostStepEffs o exe effs ∧
    ∀ e ∈ effs, e ∈ slaveLostStepEffs o exe effs := by
  by_cases hfail : o.execLostFails exe.id <;>
    rcases hct : exe.current_task with _ | t <;>
      by_cases hfin : exe.is_finished <;>
        constructor <;>
          simp [slaveLostStepEffs, hfail, hct, hfin] <;>
            intro e he <;> simp [he]

/-- The `slaveLost` loop never adds an execution id to the manager. -/
theorem slaveLostLoop_not_mem (o : SlaveLostOracle) (exes : List RunningJobExecution) :
    ∀ st effs i, i ∉ st.job_exe_manager.map (fun e => e.id) →
      i ∉ (slaveLostLoop o exes st effs).1.job_exe_manager.map (fun e => e.id) := by
  induction exes with
  | nil => intro st effs i hi; exact hi
  | cons exe rest ih =>
    intro st effs i hi
    by_cases hfail : o.execLostFails exe.id
    · rcases hct : exe.current_task with _ | t
      · by_cases hfin : exe.is_finished <;>
          simp only [slaveLostLoop, hfail, hct, checkRemove, hfin, if_true, if_false]
        · exact ih _ _ i (by rw [mem_ids_remove]; rintro ⟨hmem, hne⟩; exact hi hmem)
        · exact ih _ _ i hi
      · rcases hrt : st.recon_thread with _ | rt
        · simp only [slaveLostLoop, hfail, hct, hrt]
          simpa using hi
        · by_cases hfin : exe.is_finished <;>
            simp only [slaveLostLoop, hfail, hct, hrt, checkRemove, hfin, if_true, if_false]
          · exact ih _ _ i (by rw [mem_ids_remove]; rintro ⟨hmem, hne⟩; exact hi hmem)
          · exact ih _ _ i hi
    · have hfin : (exe.execution_lost).is_finished = true := rfl
      simp only [slaveLostLoop, hfail, checkRemove, hfin, if_true, Bool.false_eq_true, if_false]
      refine ih _ _ i ?_
      rw [mem_ids_remove]
      rintro ⟨hmem, hne⟩
      rw [ids_update_job_exe] at hmem
      exact hi hmem

/-- Per-execution guarantees of the `slaveLost` loop: every listed execution
gets its `execution_lost` call; it is gone from the manager afterwards when
its transition succeeded or it was already terminal; and when its transition
failed, its current task id is in the final reconciliation set. -/
theorem slaveLostLoop_processes (o : SlaveLostOracle) (exes : List RunningJobExecution) :
    ∀ st effs rt, st.recon_thread = some rt → ∀ exe ∈ exes,
      Effect.executionLostCall exe.id ∈ (slaveLostLoop o exes st effs).2.1 ∧
      ((o.execLostFails exe.id = false ∨ exe.is_finished = true) →
        exe.id ∉ (slaveLostLoop o exes st effs).1.job_exe_manager.map (fun e => e.id)) ∧
      (o.execLostFails exe.id = true → ∀ t, exe.current_task = some t →
        ∃ rt', (slaveLostLoop o exes st effs).1.recon_thread = some rt' ∧
          t.id ∈ rt'.task_ids) := by
  induction exes with
  | nil =>
    intro st effs rt hrt exe hexe
    cases hexe
  | cons exe0 rest ih =>
    intro st effs rt hrt exe hexe
    rw [slaveLostLoop_cons_eq o exe0 rest st effs rt hrt]
    obtain ⟨rt2, hrt2, hsub2, hadd2⟩ := slaveLostStepState_recon o exe0 st rt hrt
    rcases List.mem_cons.mp hexe with heq | hmem
    · subst heq
      refine ⟨?_, ?_, ?_⟩
      · exact slaveLostLoop_effects_mono o rest _ _ _ (slaveLostStepEffs_mem o exe effs).1
      · intro hcase
        exact slaveLostLoop_not_mem o rest _ _ _ (slaveLostStepState_removes o exe st hcase)
      · intro hfail t ht
        obtain ⟨rt', h1, h2, h3⟩ := slaveLostLoop_recon o rest (slaveLostStepState o exe st)
          (slaveLostStepEffs o exe effs) rt2 hrt2
        exact ⟨rt', h1, h2 t.id (hadd2 hfail t ht)⟩
    · exact ih (slaveLostStepState o exe0 st) (slaveLostStepEffs o exe0 effs) rt2 hrt2 exe hmem

/-- An execution id stays in the manager through the `slaveLost` loop when
every listed execution with that id has a failing transition and is
non-terminal. -/
theorem slaveLostLoop_preserved (o : SlaveLostOracle) (exes : List RunningJobExecution) :
    ∀ st effs rt i, st.recon_thread = some rt →
      i ∈ st.job_exe_manager.map (fun e => e.id) →
      (∀ exe ∈ exes, exe.id = i →
        o.execLostFails exe.id = true ∧ exe.is_finished = false) →
      i ∈ (slaveLostLoop o exes st effs).1.job_exe_manager.map (fun e => e.id) := by
  induction exes with
  | nil =>
    intro st effs rt i _ hi _
    exact hi
  | cons exe0 rest ih =>
    intro st effs rt i hrt hi hall
    rw [slaveLostLoop_cons_eq o exe0 rest st effs rt hrt]
    obtain ⟨rt2, hrt2, _, _⟩ := slaveLostStepState_recon o exe0 st rt hrt
    refine ih _ _ rt2 i hrt2 ?_ (fun exe hexe => hall exe (List.mem_cons_of_mem _ hexe))
    exact slaveLostStepState_keeps o exe0 st i hi
      (fun hid => hall exe0 (List.mem_cons_self _ _) hid)


/-- C5: after `slaveLost(driver, A)` the Offer Manager has been told to
purge A's offers (and holds none of them), the Node Manager has been told A
is lost, and every running execution on A's node received its
`execution_lost` transition — removed from the manager when it succeeded
(the state is then terminal) — while a backing-store failure for one
execution puts its current task id into the reconciliation set and the
remaining executions are still processed. -/
theorem slaveLost_node_loss (s : SchedulerState) (a : String) (o : SlaveLostOracle)
    (rt : ReconThread) (hrt : s.recon_thread = some rt) :
    (∀ off ∈ (slaveLost s a o).state.offer_manager.offers, off.agent_id ≠ a) ∧
    Effect.nodeLostNode a ∈ (slaveLost s a o).effects ∧
    Effect.offerLostNode a ∈ (slaveLost s a o).effects ∧
    (∀ n, s.node_manager.get_node a = some n →
      ∀ exe ∈ get_job_exes_on_node s.job_exe_manager n.id,
        Effect.executionLostCall exe.id ∈ (slaveLost s a o).effects ∧
        (o.execLostFails exe.id = false →
          exe.id ∉ (slaveLost s a o).state.job_exe_manager.map (fun e => e.id)) ∧
        (o.execLostFails exe.id = true → ∀ t, exe.current_task = some t →
          ∃ rt', (slaveLost s a o).state.recon_thread = some rt' ∧
            t.id ∈ rt'.task_ids)) := by
  rcases hn : s.node_manager.get_node a with _ | node
  · simp only [slaveLost, hn]
    refine ⟨?_, by simp, by simp, ?_⟩
    · intro off hoff
      simp only [OfferManagerState.lost_node, List.mem_filter] at hoff
      simpa using hoff.2
    · intro n hn2
      simp at hn2
  · simp only [slaveLost, hn]
    refine ⟨?_, ?_, ?_, ?_⟩
    · intro off hoff
      rw [slaveLostLoop_offers] at hoff
      simp only [OfferManagerState.lost_node, List.mem_filter] at hoff
      simpa using hoff.2
    · exact slaveLostLoop_effects_mono o _ _ _ _ (by simp)
    · exact slaveLostLoop_effects_mono o _ _ _ _ (by simp)
    · intro n hn2 exe hexe
      obtain rfl := Option.some.inj hn2
      refine ⟨?_, ?_, ?_⟩
      · exact (slaveLostLoop_processes o _ _ _ rt (by exact hrt) exe hexe).1
      · intro hfail
        exact (slaveLostLoop_processes o _ _ _ rt (by exact hrt) exe hexe).2.1 (Or.inl hfail)
      · intro hfail t ht
        exact (slaveLostLoop_processes o _ _ _ rt (by exact hrt) exe hexe).2.2 hfail t ht

/-- Witness for C5 at a concrete input: node `a1` is lost while execution 7
runs on it and the backing store works. -/
theorem slaveLost_node_loss_witness :
    sEx.recon_thread = some ⟨1, ["7_0", "x"]⟩ ∧
    ((∀ off ∈ (slaveLost sEx "a1" ⟨fun _ => false⟩).state.offer_manager.offers,
        off.agent_id ≠ "a1") ∧
      Effect.nodeLostNode "a1" ∈ (slaveLost sEx "a1" ⟨fun _ => false⟩).effects ∧
      Effect.offerLostNode "a1" ∈ (slaveLost sEx "a1" ⟨fun _ => false⟩).effects ∧
      (∀ n, sEx.node_manager.get_node "a1" = some n →
        ∀ exe ∈ get_job_exes_on_node sEx.job_exe_manager n.id,
          Effect.executionLostCall exe.id ∈ (slaveLost sEx "a1" ⟨fun _ => false⟩).effects ∧
          ((fun _ => false : Nat → Bool) exe.id = false →
            exe.id ∉ (slaveLost sEx "a1" ⟨fun _ => false⟩).state.job_exe_manager.map
              (fun e => e.id)) ∧
          ((fun _ => false : Nat → Bool) exe.id = true → ∀ t, exe.current_task = some t →
            ∃ rt', (slaveLost sEx "a1" ⟨fun _ => false⟩).state.recon_thread = some rt' ∧
              t.id ∈ rt'.task_ids))) :=
  ⟨rfl, slaveLost_node_loss sEx "a1" ⟨fun _ => false⟩ ⟨1, ["7_0", "x"]⟩ rfl⟩

/-- C8: a running execution is removed from the manager exactly when its
state machine reports terminal at the end of handling.  In `statusUpdate`
(when no exception escaped) the decoded execution is in the final manager iff
the transitioned execution is not terminal; when an exception escaped, or the
execution is unknown, the manager is untouched.  In `slaveLost`, each
execution on the lost node is in the final manager iff the execution as left
by its (possibly failing) `execution_lost` transition is not terminal. -/
theorem terminal_removal (s : SchedulerState) (status : TaskStatus) (o : StatusOracle)
    (a : String) (os : SlaveLostOracle) (rt : ReconThread)
    (hrt : s.recon_thread = some rt) :
    (∀ exe, get_job_exe s.job_exe_manager (get_job_exe_id status.task_id) = some exe →
      ((statusUpdate s status o).handled = false →
        ∀ exe', (knownExeStep exe status o).1 = StepOutcome.ok exe' →
          (get_job_exe_id status.task_id ∈
              (statusUpdate s status o).state.job_exe_manager.map (fun e => e.id) ↔
            exe'.is_finished = false)) ∧
      ((statusUpdate s status o).handled = true →
        (statusUpdate s status o).state.job_exe_manager = s.job_exe_manager)) ∧
    (get_job_exe s.job_exe_manager (get_job_exe_id status.task_id) = none →
      (statusUpdate s status o).state.job_exe_manager = s.job_exe_manager) ∧
    ((s.job_exe_manager.map (fun e => e.id)).Nodup →
      ∀ n, s.node_manager.get_node a = some n →
        ∀ exe ∈ get_job_exes_on_node s.job_exe_manager n.id,
          (exe.id ∈ (slaveLost s a os).state.job_exe_manager.map (fun e => e.id) ↔
            (if os.execLostFails exe.id then exe else exe.execution_lost).is_finished =
              false)) := by
  refine ⟨?_, ?_, ?_⟩
  · intro exe hknown
    have hmem : exe ∈ s.job_exe_manager := List.mem_of_find?_eq_some hknown
    have hid : exe.id = get_job_exe_id status.task_id := by
      have := List.find?_some hknown
      simpa using this
    constructor
    · intro hh exe' hok
      simp only [statusUpdate, hrt] at hh ⊢
      simp only [hknown] at hh ⊢
      rcases hks : knownExeStep exe status o with ⟨out, effs⟩
      rw [hks] at hok
      simp only [hks] at hh ⊢
      cases out with
      | exn => simp at hok
      | ok exe2 =>
        have hex : exe2 = exe' := by simpa using hok
        subst hex
        by_cases hfin : exe2.is_finished
        · simp only [hfin, if_true]
          refine iff_of_false ?_ (by simp [hfin])
          simpa using not_mem_ids_remove_self s.job_exe_manager (get_job_exe_id status.task_id)
        · simp only [hfin, Bool.false_eq_true, if_false]
          refine iff_of_true ?_ (by simp [hfin])
          simp only [ids_update_job_exe]
          exact List.mem_map.mpr ⟨exe, hmem, hid⟩
    · intro hh
      simp only [statusUpdate, hrt] at hh ⊢
      simp only [hknown] at hh ⊢
      rcases hks : knownExeStep exe status o with ⟨out, effs⟩
      simp only [hks] at hh ⊢
      cases out with
      | exn => rfl
      | ok exe2 =>
        by_cases hfin : exe2.is_finished <;> simp [hfin] at hh
  · intro hunk
    simp only [statusUpdate, hrt]
    simp only [hunk]
    by_cases hf : o.handleJobFailureFails <;> simp [hf]
  · intro hnodup n hn exe hexe
    simp only [slaveLost, hn]
    have hmem_mgr : exe ∈ s.job_exe_manager := by
      simp only [get_job_exes_on_node, List.mem_filter] at hexe
      exact hexe.1
    by_cases hfail : os.execLostFails exe.id
    · by_cases hfin : exe.is_finished
      · simp only [hfail, if_true]
        refine iff_of_false ?_ (by simp [hfin])
        exact (slaveLostLoop_processes os _ _ _ rt (by exact hrt) exe hexe).2.1 (Or.inr hfin)
      · simp only [hfail, if_true]
        refine iff_of_true ?_ (by simpa using hfin)
        refine slaveLostLoop_preserved os _ _ _ rt exe.id (by exact hrt) ?_ ?_
        · exact List.mem_map.mpr ⟨exe, hmem_mgr, rfl⟩
        · intro exe2 hexe2 hid2
          have hm2 : exe2 ∈ s.job_exe_manager := by
            simp only [get_job_exes_on_node, List.mem_filter] at hexe2
            exact hexe2.1
          have heq : exe2 = exe := List.inj_on_of_nodup_map hnodup hm2 hmem_mgr hid2
          subst heq
          exact ⟨hfail, by simpa using hfin⟩
    · have hfail' : os.execLostFails exe.id = false := by simpa using hfail
      rw [if_neg hfail]
      have hterm : (exe.execution_lost).is_finished = true := rfl
      refine iff_of_false ?_ (by simp [hterm])
      exact (slaveLostLoop_processes os _ _ _ rt (by exact hrt) exe hexe).2.1 (Or.inl hfail')

/-- Witness for C8 at a concrete input. -/
theorem terminal_removal_witness :
    sEx.recon_thread = some ⟨1, ["7_0", "x"]⟩ ∧
    ((∀ exe, get_job_exe sEx.job_exe_manager (get_job_exe_id "7_0") = some exe →
      ((statusUpdate sEx { task_id := "7_0", state := .finished } {}).handled = false →
        ∀ exe', (knownExeStep exe { task_id := "7_0", state := .finished } {}).1 =
            StepOutcome.ok exe' →
          (get_job_exe_id "7_0" ∈
              (statusUpdate sEx { task_id := "7_0", state := .finished }
                {}).state.job_exe_manager.map (fun e => e.id) ↔
            exe'.is_finished = false)) ∧
      ((statusUpdate sEx { task_id := "7_0", state := .finished } {}).handled = true →
        (statusUpdate sEx { task_id := "7_0", state := .finished }
          {}).state.job_exe_manager = sEx.job_exe_manager)) ∧
    (get_job_exe sEx.job_exe_manager (get_job_exe_id "7_0") = none →
      (statusUpdate sEx { task_id := "7_0", state := .finished }
        {}).state.job_exe_manager = sEx.job_exe_manager) ∧
    ((sEx.job_exe_manager.map (fun e => e.id)).Nodup →
      ∀ n, sEx.node_manager.get_node "a1" = some n →
        ∀ exe ∈ get_job_exes_on_node sEx.job_exe_manager n.id,
          (exe.id ∈ (slaveLost sEx "a1" ⟨fun _ => false⟩).state.job_exe_manager.map
              (fun e => e.id) ↔
            (if (fun _ => false : Nat → Bool) exe.id then exe
              else exe.execution_lost).is_finished = false))) :=
  ⟨rfl, terminal_removal sEx { task_id := "7_0", state := .finished } {} "a1"
    ⟨fun _ => false⟩ ⟨1, ["7_0", "x"]⟩ rfl⟩

/-- When the unknown-execution failure marking cannot raise, the reconcile
collection loop raises nothing and its trace is all failure markings. -/
theorem reconcileLoop_ok (mgr : List RunningJobExecution) (o : ReconcileOracle)
    (h : o.handleJobFailureFails = false) :
    ∀ ids, (reconcileLoop mgr o ids).2.2 = none ∧
      ∀ e ∈ (reconcileLoop mgr o ids).2.1,
        ∃ i, e = Effect.handleJobFailure i BuiltinError.schedulerLost := by
  intro ids
  induction ids with
  | nil => exact ⟨rfl, by simp [reconcileLoop]⟩
  | cons id rest ih =>
    simp only [reconcileLoop]
    rcases hge : get_job_exe mgr id with _ | exe
    · simp only [h, Bool.false_eq_true, if_false]
      refine ⟨ih.1, ?_⟩
      intro e he
      rcases List.mem_cons.mp he with rfl | he2
      · exact ⟨id, rfl⟩
      · exact ih.2 e he2
    · rcases hct : exe.current_task with _ | t <;> simp only [hct] <;> exact ih

/-- C2 counterexample: `reregistered` performs the backing-store write
`Scheduler.objects.update_master` with no exception handling; when that write
raises a `DatabaseError`, the exception propagates out of the callback to the
Driver. -/
theorem reregistered_propagates_counterexample :
    (reregistered sEx 2 { hostname := "m2", port := 5050 }
      { updateMasterFails := true }).raised = some Exn.dbError := by
  decide

/-- C2 (amended): the dispatcher-side callbacks `disconnected`,
`resourceOffers`, `offerRescinded`, `statusUpdate`, `frameworkMessage`,
`slaveLost`, `executorLost` and `error` never propagate an exception to the
Driver (under the modelled collaborator failures: log-fetch and state-machine
failures in `statusUpdate`, per-execution backing-store failures in
`slaveLost`); `registered` and `reregistered`, however, perform unguarded
backing-store calls and can propagate. -/
theorem callbacks_do_not_propagate (s : SchedulerState) (rt : ReconThread)
    (hrt : s.recon_thread = some rt) (status : TaskStatus) (o : StatusOracle)
    (a : String) (os : SlaveLostOracle) (offers : List RawOffer)
    (offer_id : String) (eid aid msg : String) :
    (disconnected s).raised = none ∧
    (resourceOffers s offers).raised = none ∧
    (offerRescinded s offer_id).raised = none ∧
    (statusUpdate s status o).raised = none ∧
    (frameworkMessage s eid aid msg).raised = none ∧
    (slaveLost s a os).raised = none ∧
    (executorLost s eid aid).raised = none ∧
    (errorCallback s msg).raised = none := by
  refine ⟨rfl, rfl, rfl, ?_, rfl, ?_, rfl, rfl⟩
  · simp only [statusUpdate, hrt]
    rcases hge : get_job_exe s.job_exe_manager (get_job_exe_id status.task_id) with _ | exe
    · by_cases hf : o.handleJobFailureFails <;> simp [hf]
    · rcases hks : knownExeStep exe status o with ⟨out, effs⟩
      cases out with
      | exn => simp [hks]
      | ok exe2 => by_cases hfin : exe2.is_finished <;> simp [hks, hfin]
  · rcases hn : s.node_manager.get_node a with _ | node
    · simp [slaveLost, hn]
    · simp only [slaveLost, hn]
      obtain ⟨rt2, h1, h2, h3⟩ := slaveLostLoop_recon os
        (get_job_exes_on_node s.job_exe_manager node.id)
        { s with node_manager := s.node_manager.lost_node a,
                 offer_manager := s.offer_manager.lost_node a }
        [Effect.nodeLostNode a, Effect.offerLostNode a] rt hrt
      exact h3

/-- Witness for C2 (amended) at a concrete input. -/
theorem callbacks_do_not_propagate_witness :
    sEx.recon_thread = some ⟨1, ["7_0", "x"]⟩ ∧
    ((disconnected sEx).raised = none ∧
      (resourceOffers sEx []).raised = none ∧
      (offerRescinded sEx "o1").raised = none ∧
      (statusUpdate sEx { task_id := "7_0", state := .finished } {}).raised = none ∧
      (frameworkMessage sEx "e" "a1" "m").raised = none ∧
      (slaveLost sEx "a1" ⟨fun _ => false⟩).raised = none ∧
      (executorLost sEx "e" "a1").raised = none ∧
      (errorCallback sEx "boom").raised = none) :=
  ⟨rfl, callbacks_do_not_propagate sEx ⟨1, ["7_0", "x"]⟩ rfl
    { task_id := "7_0", state := .finished } {} "a1" ⟨fun _ => false⟩ [] "o1" "e" "a1" "boom"⟩

/-- C9: a `reregistered` call on a registered scheduler (the three loop
thread handles exist) with working backing store updates and persists the
master identity, rotates the new driver into the three already-running loop
threads, issues a reconcile pass (backing-store query plus a reconciliation
add), starts no thread, raises nothing, and mutates nothing except the
master identity, the driver references and the reconciliation set. -/
theorem reregistered_frame (s : SchedulerState) (d : Nat) (mi : MasterInfo)
    (o : ReregisteredOracle) (t1 : ThreadState) (rt : ReconThread) (t3 : ThreadState)
    (h1 : s.db_sync_thread = some t1) (h2 : s.recon_thread = some rt)
    (h3 : s.scheduling_thread = some t3)
    (hm : o.updateMasterFails = false) (hg : o.recon.getRunningFails = false)
    (hh : o.recon.handleJobFailureFails = false) :
    (reregistered s d mi o).raised = none ∧
    (reregistered s d mi o).state.driver = some d ∧
    (reregistered s d mi o).state.master_hostname = some mi.hostname ∧
    (reregistered s d mi o).state.master_port = some mi.port ∧
    Effect.updateMaster mi.hostname mi.port ∈ (reregistered s d mi o).effects ∧
    (reregistered s d mi o).state.db_sync_thread = some { driver := d } ∧
    (reregistered s d mi o).state.scheduling_thread = some { driver := d } ∧
    (∃ new, (reregistered s d mi o).state.recon_thread =
      some { driver := d, task_ids := rt.task_ids ++ new }) ∧
    Effect.getRunningJobExes ∈ (reregistered s d mi o).effects ∧
    (∃ ts, Effect.reconAdd ts ∈ (reregistered s d mi o).effects) ∧
    (∀ tn, Effect.startThread tn ∉ (reregistered s d mi o).effects) ∧
    (reregistered s d mi o).state.job_exe_manager = s.job_exe_manager ∧
    (reregistered s d mi o).state.node_manager = s.node_manager ∧
    (reregistered s d mi o).state.offer_manager = s.offer_manager ∧
    (reregistered s d mi o).state.framework_id = s.framework_id ∧
    (reregistered s d mi o).state.executor = s.executor := by
  obtain ⟨hex, heffs⟩ := reconcileLoop_ok s.job_exe_manager o.recon hh o.recon.running_ids
  simp only [reregistered, hm, Bool.false_eq_true, if_false, h1, h2, h3,
    reconcile_running_jobs, hg]
  rcases hl : reconcileLoop s.job_exe_manager o.recon o.recon.running_ids with ⟨ts, effs, ex⟩
  rw [hl] at hex heffs
  simp only at hex
  subst hex
  simp only
  refine ⟨trivial, trivial, trivial, trivial, by simp, trivial, trivial, ⟨ts, rfl⟩,
    by simp, ⟨ts, by simp⟩, ?_, trivial, trivial, trivial, trivial, trivial⟩
  intro tn h
  simp at h
  obtain ⟨i, hi⟩ := heffs _ h
  exact Effect.noConfusion hi

/-- Witness for C9 at a concrete input. -/
theorem reregistered_frame_witness :
    sEx.db_sync_thread = some ⟨1⟩ ∧ sEx.recon_thread = some ⟨1, ["7_0", "x"]⟩ ∧
    sEx.scheduling_thread = some ⟨1⟩ ∧
    ((reregistered sEx 2 { hostname := "m2", port := 5050 } {}).raised = none ∧
      (reregistered sEx 2 { hostname := "m2", port := 5050 } {}).state.driver = some 2 ∧
      (reregistered sEx 2 { hostname := "m2", port := 5050 } {}).state.master_hostname =
        some "m2" ∧
      (reregistered sEx 2 { hostname := "m2", port := 5050 } {}).state.master_port =
        some 5050 ∧
      Effect.updateMaster "m2" 5050 ∈
        (reregistered sEx 2 { hostname := "m2", port := 5050 } {}).effects ∧
      (reregistered sEx 2 { hostname := "m2", port := 5050 } {}).state.db_sync_thread =
        some { driver := 2 } ∧
      (reregistered sEx 2 { hostname := "m2", port := 5050 } {}).state.scheduling_thread =
        some { driver := 2 } ∧
      (∃ new, (reregistered sEx 2 { hostname := "m2", port := 5050 } {}).state.recon_thread =
        some { driver := 2, task_ids := ["7_0", "x"] ++ new }) ∧
      Effect.getRunningJobExes ∈
        (reregistered sEx 2 { hostname := "m2", port := 5050 } {}).effects ∧
      (∃ ts, Effect.reconAdd ts ∈
        (reregistered sEx 2 { hostname := "m2", port := 5050 } {}).effects) ∧
      (∀ tn, Effect.startThread tn ∉
        (reregistered sEx 2 { hostname := "m2", port := 5050 } {}).effects) ∧
      (reregistered sEx 2 { hostname := "m2", port := 5050 } {}).state.job_exe_manager =
        sEx.job_exe_manager ∧
      (reregistered sEx 2 { hostname := "m2", port := 5050 } {}).state.node_manager =
        sEx.node_manager ∧
      (reregistered sEx 2 { hostname := "m2", port := 5050 } {}).state.offer_manager =
        sEx.offer_manager ∧
      (reregistered sEx 2 { hostname := "m2", port := 5050 } {}).state.framework_id =
        sEx.framework_id ∧
      (reregistered sEx 2 { hostname := "m2", port := 5050 } {}).state.executor =
        sEx.executor) :=
  ⟨rfl, rfl, rfl, reregistered_frame sEx 2 { hostname := "m2", port := 5050 } {}
    ⟨1⟩ ⟨1, ["7_0", "x"]⟩ ⟨1⟩ rfl rfl rfl rfl rfl rfl⟩

/-- C10: the constructor leaves the three loop-thread handles `None`, so
`shutdown()` and `reregistered()` before a successful `registered()` raise
`AttributeError` (they dereference the handles unconditionally) instead of
being no-ops; after `registered()` has run, `shutdown()` raises nothing. -/
theorem uninitialized_thread_handles (e d : Nat) (fid : String) (mi : MasterInfo) :
    (initScheduler e).db_sync_thread = none ∧
    (initScheduler e).recon_thread = none ∧
    (initScheduler e).scheduling_thread = none ∧
    (shutdown (initScheduler e)).raised = some Exn.attrError ∧
    (reregistered (initScheduler e) d mi {}).raised = some Exn.attrError ∧
    (shutdown (registered (initScheduler e) d fid mi {}).state).raised = none :=
  ⟨rfl, rfl, rfl, rfl, rfl, rfl⟩

end Scale

